import Mathlib

/-!
Verification development for the upload-and-analyze pipeline of the
ai-resume-analyzer repository (source: `src/app/routes/upload.tsx`, function
`handleAnalyze`).

The development has two parts:

1. A model of the JSON values, of `JSON.stringify` and of `JSON.parse` as the
   pipeline uses them (`JSON.stringify(data)` for the persisted Record,
   `JSON.parse(feedbackText)` for the AI feedback).  JSON numbers are modelled
   as integers (the records under study carry integer scores; floating point
   is out of scope), strings as sequences of Unicode scalar values, and JSON
   texts without insignificant whitespace (the serializer never emits any).
2. A shallow embedding of `handleAnalyze`: the collaborators (auth gate, blob
   store `fs.upload`, rasterizer `convertPdfToImage`, record store `kv.set`,
   feedback service `ai.feedback`) are modelled by an environment describing
   the outcome of each call (a returned value or a thrown error), and the run
   is a pure function from the input and the environment to the trace of
   side-effecting calls, the final status text, the processing flag and the
   navigation target.
-/

/-! ## JSON values -/
mutual

inductive Json where
  | str (s : String)
  | num (i : Int)
  | bool (b : Bool)
  | null
  | arr (items : JsonList)
  | obj (fields : JsonFields)

inductive JsonList where
  | nil
  | cons (head : Json) (tail : JsonList)

inductive JsonFields where
  | nil
  | cons (key : String) (value : Json) (tail : JsonFields)

end

/-! ## Decimal digits -/
def digitChar : Nat → Char
  | 0 => '0' | 1 => '1' | 2 => '2' | 3 => '3' | 4 => '4'
  | 5 => '5' | 6 => '6' | 7 => '7' | 8 => '8' | _ => '9'

/-- Decimal representation of a natural number, most significant digit first.
Fuel-driven so that it evaluates by kernel reduction; `natToDigits` supplies
enough fuel. -/
def natToDigitsAux : Nat → Nat → List Char
  | 0, _ => []
  | fuel + 1, n =>
    if n < 10 then [digitChar n]
    else natToDigitsAux fuel (n / 10) ++ [digitChar (n % 10)]

def natToDigits (n : Nat) : List Char := natToDigitsAux (n + 1) n

/-- Value of a list of decimal digit characters, most significant first. -/
def digitsVal (l : List Char) : Nat :=
  l.foldl (fun a c => 10 * a + (c.toNat - 48)) 0

/-! ## Hexadecimal digits (for string escapes) -/
def hexDigit : Nat → Char
  | 0 => '0' | 1 => '1' | 2 => '2' | 3 => '3' | 4 => '4' | 5 => '5'
  | 6 => '6' | 7 => '7' | 8 => '8' | 9 => '9' | 10 => 'a' | 11 => 'b'
  | 12 => 'c' | 13 => 'd' | 14 => 'e' | _ => 'f'

def hexVal (c : Char) : Option Nat :=
  if 48 ≤ c.toNat ∧ c.toNat ≤ 57 then some (c.toNat - 48)
  else if 97 ≤ c.toNat ∧ c.toNat ≤ 102 then some (c.toNat - 87)
  else if 65 ≤ c.toNat ∧ c.toNat ≤ 70 then some (c.toNat - 55)
  else none

/-! ## Serialization (the model of `JSON.stringify`) -/

/-- Escaping of one character inside a JSON string literal, exactly as
`JSON.stringify` does it: quote and backslash get a backslash escape, the
named control characters get their short escapes, the remaining control
characters get `\u00xx`, and every other character is emitted verbatim. -/
def escChar (c : Char) : List Char :=
  if c = '"' then ['\\', '"']
  else if c = '\\' then ['\\', '\\']
  else if c.toNat = 8 then ['\\', 'b']
  else if c.toNat = 9 then ['\\', 't']
  else if c.toNat = 10 then ['\\', 'n']
  else if c.toNat = 12 then ['\\', 'f']
  else if c.toNat = 13 then ['\\', 'r']
  else if c.toNat < 32 then
    ['\\', 'u', '0', '0', hexDigit (c.toNat / 16), hexDigit (c.toNat % 16)]
  else [c]

def escapeChars : List Char → List Char
  | [] => []
  | c :: cs => escChar c ++ escapeChars cs

def serNum (i : Int) : List Char :=
  if i < 0 then '-' :: natToDigits i.natAbs else natToDigits i.natAbs

mutual

/-- Serialized form of a JSON value (as a list of characters), exactly the
output of `JSON.stringify`: no insignificant whitespace, fields in order. -/
def serL : Json → List Char
  | .str s => '"' :: (escapeChars s.data ++ ['"'])
  | .num i => serNum i
  | .bool true => ['t', 'r', 'u', 'e']
  | .bool false => ['f', 'a', 'l', 's', 'e']
  | .null => ['n', 'u', 'l', 'l']
  | .arr xs => '[' :: serItemsL xs
  | .obj fs => '\x7b' :: serFieldsL fs

def serItemsL : JsonList → List Char
  | .nil => [']']
  | .cons x .nil => serL x ++ [']']
  | .cons x (.cons y ys) => serL x ++ ',' :: serItemsL (.cons y ys)

def serFieldsL : JsonFields → List Char
  | .nil => ['\x7d']
  | .cons k v .nil => '"' :: escapeChars k.data ++ '"' :: ':' :: serL v ++ ['\x7d']
  | .cons k v (.cons k2 v2 fs) =>
      '"' :: escapeChars k.data ++ '"' :: ':' :: serL v
        ++ ',' :: serFieldsL (.cons k2 v2 fs)

end

def JSON_stringify (j : Json) : String := ⟨serL j⟩

/-! ## Parsing (the model of `JSON.parse`) -/
def mapCons (c : Char) (o : Option (List Char × List Char)) :
    Option (List Char × List Char) :=
  o.map fun p => (c :: p.1, p.2)

/-- Decode a 4-hex-digit escape body into a character. -/
def decodeHex4 (h1 h2 h3 h4 : Char) : Option Char :=
  match hexVal h1, hexVal h2, hexVal h3, hexVal h4 with
  | some a, some b, some c, some d => some (Char.ofNat (4096 * a + 256 * b + 16 * c + d))
  | _, _, _, _ => none

/-- Body of a JSON string literal, after the opening quote: returns the decoded
characters and the input remaining after the closing quote.  Raw control
characters are rejected, escapes are decoded, exactly as `JSON.parse` does. -/
def parseStringBody : List Char → Option (List Char × List Char)
  | [] => none
  | c :: cs =>
    if c = '"' then some ([], cs)
    else if c = '\\' then
      match cs with
      | [] => none
      | e :: cs' =>
        if e = '"' then mapCons '"' (parseStringBody cs')
        else if e = '\\' then mapCons '\\' (parseStringBody cs')
        else if e = '/' then mapCons '/' (parseStringBody cs')
        else if e = 'b' then mapCons (Char.ofNat 8) (parseStringBody cs')
        else if e = 'f' then mapCons (Char.ofNat 12) (parseStringBody cs')
        else if e = 'n' then mapCons (Char.ofNat 10) (parseStringBody cs')
        else if e = 'r' then mapCons (Char.ofNat 13) (parseStringBody cs')
        else if e = 't' then mapCons (Char.ofNat 9) (parseStringBody cs')
        else if e = 'u' then
          match cs' with
          | h1 :: h2 :: h3 :: h4 :: cs'' =>
            match decodeHex4 h1 h2 h3 h4 with
            | some ch => mapCons ch (parseStringBody cs'')
            | none => none
          | _ => none
        else none
    else if c.toNat < 32 then none
    else mapCons c (parseStringBody cs)

/-- Longest run of decimal digits at the front of the input, requiring at
least one. -/
def parseNat (cs : List Char) : Option (Nat × List Char) :=
  let ds := cs.takeWhile Char.isDigit
  if ds.length = 0 then none else some (digitsVal ds, cs.dropWhile Char.isDigit)

def parseNumber (cs : List Char) : Option (Int × List Char) :=
  if cs.head? = some '-' then
    match parseNat cs.tail with
    | some (n, r) => some (-(n : Int), r)
    | none => none
  else
    match parseNat cs with
    | some (n, r) => some ((n : Int), r)
    | none => none

mutual

/-- Recursive-descent parser for whitespace-free JSON texts, fuel-driven.
Returns the parsed value and the remaining input. -/
def parseJson : Nat → List Char → Option (Json × List Char)
  | 0, _ => none
  | n + 1, cs =>
    match cs with
    | [] => none
    | c :: rest =>
      if c = '"' then
        match parseStringBody rest with
        | some (l, r) => some (.str ⟨l⟩, r)
        | none => none
      else if c = '[' then
        if rest.head? = some ']' then some (.arr .nil, rest.tail)
        else
          match parseItems n rest with
          | some (xs, r) => some (.arr xs, r)
          | none => none
      else if c = '\x7b' then
        if rest.head? = some '\x7d' then some (.obj .nil, rest.tail)
        else
          match parseFields n rest with
          | some (fs, r) => some (.obj fs, r)
          | none => none
      else if c = 't' then
        if rest.take 3 = ['r', 'u', 'e'] then some (.bool true, rest.drop 3) else none
      else if c = 'f' then
        if rest.take 4 = ['a', 'l', 's', 'e'] then some (.bool false, rest.drop 4) else none
      else if c = 'n' then
        if rest.take 3 = ['u', 'l', 'l'] then some (.null, rest.drop 3) else none
      else if c = '-' ∨ c.isDigit then
        match parseNumber (c :: rest) with
        | some (i, r) => some (.num i, r)
        | none => none
      else none

/-- Elements of a non-empty array, up to and including the closing bracket. -/
def parseItems : Nat → List Char → Option (JsonList × List Char)
  | 0, _ => none
  | n + 1, cs =>
    match parseJson n cs with
    | some (j, r) =>
      if r.head? = some ',' then
        match parseItems n r.tail with
        | some (js, r') => some (.cons j js, r')
        | none => none
      else if r.head? = some ']' then some (.cons j .nil, r.tail)
      else none
    | none => none

/-- Fields of a non-empty object, up to and including the closing brace. -/
def parseFields : Nat → List Char → Option (JsonFields × List Char)
  | 0, _ => none
  | n + 1, cs =>
    match cs with
    | [] => none
    | c :: cs' =>
      if c = '"' then
        match parseStringBody cs' with
        | some (k, r) =>
          if r.head? = some ':' then
            match parseJson n r.tail with
            | some (v, r') =>
              if r'.head? = some ',' then
                match parseFields n r'.tail with
                | some (fs, r'') => some (.cons ⟨k⟩ v fs, r'')
                | none => none
              else if r'.head? = some '\x7d' then some (.cons ⟨k⟩ v .nil, r'.tail)
              else none
            | none => none
          else none
        | none => none
      else none

end

/-- The model of `JSON.parse`, restricted to whitespace-free JSON texts (the
serializer never emits whitespace): `none` models a thrown `SyntaxError`. -/
def JSON_parse (s : String) : Option Json :=
  match parseJson (s.data.length + 1) s.data with
  | some (j, []) => some j
  | _ => none

/-! ## Round-trip: auxiliary lemmas -/

/-- The head of the remaining input, if any, is not a decimal digit (so that a
greedy number parse stops exactly at the serialized boundary). -/
def headNotDigit (r : List Char) : Prop :=
  ∀ c, r.head? = some c → c.isDigit = false

/-! ## The persisted Record -/

/-- The record assembled by `handleAnalyze` (the `data` object literal):
`id`, `resumePath`, `imagePath`, the three request fields, and `feedback`,
which starts as the empty string and is later replaced by parsed JSON. -/
structure Record where
  id : String
  resumePath : String
  imagePath : String
  companyName : String
  jobTitle : String
  jobDescription : String
  feedback : Json

/-- The JSON object for a Record, fields in the insertion order of the
source's object literal (which `JSON.stringify` preserves). -/
def recordToJson (r : Record) : Json :=
  .obj (.cons "id" (.str r.id)
    (.cons "resumePath" (.str r.resumePath)
      (.cons "imagePath" (.str r.imagePath)
        (.cons "companyName" (.str r.companyName)
          (.cons "jobTitle" (.str r.jobTitle)
            (.cons "jobDescription" (.str r.jobDescription)
              (.cons "feedback" r.feedback .nil)))))))

/-- The JSON text of a record, as the source's `JSON.stringify(data)` call
produces it. -/
def stringifyRecord (r : Record) : String := JSON_stringify (recordToJson r)

def jsonToRecord : Json → Option Record
  | .obj (.cons "id" (.str id)
      (.cons "resumePath" (.str resumePath)
        (.cons "imagePath" (.str imagePath)
          (.cons "companyName" (.str companyName)
            (.cons "jobTitle" (.str jobTitle)
              (.cons "jobDescription" (.str jobDescription)
                (.cons "feedback" feedback .nil))))))) =>
      some ⟨id, resumePath, imagePath, companyName, jobTitle, jobDescription, feedback⟩
  | _ => none

/-- Reading a Record back from its JSON text. -/
def parseRecord (s : String) : Option Record :=
  match JSON_parse s with
  | some j => jsonToRecord j
  | none => none

/-! ## The pipeline: collaborator model

`handleAnalyze` awaits, in order: `fs.upload([file])`, `convertPdfToImage(file)`,
`fs.upload([imageFile.file])`, `kv.set` (draft), `ai.feedback`, `kv.set` (final).
Each awaited call either returns a value or throws; an `Env` fixes the outcome
of each call of one run.  The input carries the request fields and the file's
declared media type (the only file attribute the control flow reads). -/

/-- Outcome of one awaited collaborator call: a returned value, or a thrown
error carrying its message. -/
inductive CallResult (α : Type) where
  | throws (msg : String)
  | ok (val : α)

/-- Result of `fs.upload`: the source only reads `.path` of the returned
object (`undefined` is modelled by `ok none`). -/
structure UploadedFile where
  path : String

/-- The file object produced by the rasterizer: the source reads `.size`. -/
structure ImgFile where
  size : Nat

/-- Result shape of `convertPdfToImage`: `\x7b file?, error? \x7d`. -/
structure ConvertResult where
  file : Option ImgFile
  error : Option String

/-- One block of array-shaped feedback content: the source reads `.text` of
the first element. -/
structure Block where
  text : String

/-- Shape of `feedback.message.content`: a plain string or an array of blocks. -/
inductive Content where
  | str (s : String)
  | blocks (bs : List Block)

structure FeedbackMsg where
  content : Content

structure FeedbackResp where
  message : FeedbackMsg

/-- Caller-supplied input of `handleAnalyze`; `fileType` is the declared media
type (`file.type`). -/
structure AnalyzeInput where
  companyName : String
  jobTitle : String
  jobDescription : String
  fileType : String

/-- The behaviour of every collaborator during one run, plus the UUID that
`generateUUID()` returns. -/
structure Env where
  isAuthenticated : Bool
  uploadFile : CallResult (Option UploadedFile)
  convertPdf : CallResult ConvertResult
  uploadImage : CallResult (Option UploadedFile)
  kvSetDraft : CallResult Unit
  aiFeedback : CallResult (Option FeedbackResp)
  kvSetFinal : CallResult Unit
  uuid : String

/-- One observable side-effecting call of the run, in order. -/
inductive Event where
  | fsUpload
  | convertCall
  | kvSet (key : String) (value : String)
  | aiCall
deriving DecidableEq

/-- Mutable pieces the run accumulates: the trace of collaborator calls and
the last `setStatusText` value (initially the `useState(" ")` default). -/
structure St where
  events : List Event
  status : String

/-- Result of the `try` body: a normal exit (early `return` or success, with
the navigation target if any), or an exception reaching the outer `catch`. -/
inductive BodyResult where
  | normal (st : St) (navigated : Option String)
  | thrown (st : St) (msg : String)

/-- Model of `file.type.includes('pdf')`: a case-sensitive contiguous substring
test. -/
def jsIncludes (s sub : String) : Bool := decide (sub.data <:+: s.data)

/-- Model of `imageFile.error || 'Unknown error'`: JavaScript `||` takes the fallback on
`undefined` and on the empty string (both falsy). -/
def jsOr (o : Option String) (d : String) : String :=
  match o with
  | some s => if s = "" then d else s
  | none => d

/-- Model of `typeof content === "string" ? content : content[0].text`; on an empty
array, `content[0]` is `undefined` and reading `.text` throws a `TypeError`. -/
def extractText : Content → Except String String
  | .str s => .ok s
  | .blocks [] => .error "Cannot read properties of undefined (reading 'text')"
  | .blocks (b :: _) => .ok b.text

/-- The `data` object literal assembled before the draft persist. -/
def draftRecord (inp : AnalyzeInput) (uuid p1 p2 : String) : Record :=
  ⟨uuid, p1, p2, inp.companyName, inp.jobTitle, inp.jobDescription, .str ""⟩

/-- The `try` block of `handleAnalyze`, step for step.  Status strings are the
source's verbatim; every `return` is a `BodyResult.normal`; every `await` that
rejects outside an inner `try` is a `BodyResult.thrown`. -/
def handleAnalyzeBody (inp : AnalyzeInput) (env : Env) : BodyResult :=
  let st0 : St := { events := [], status := " " }
  if env.isAuthenticated = false then
    .normal { st0 with status := "Error: Please sign in to upload files" } none
  else if jsIncludes inp.fileType "pdf" = false then
    .normal { st0 with status := "Error: Please upload a PDF file" } none
  else
    let st1 : St := { events := [Event.fsUpload], status := "Uploading the file..." }
    match env.uploadFile with
    | .throws m =>
      .normal { st1 with status := "Error: Failed to upload file - " ++ m } none
    | .ok none =>
      .normal { st1 with status := "Error: Failed to upload file - no result returned" } none
    | .ok (some up) =>
      let st2 : St := { events := st1.events ++ [Event.convertCall],
                        status := "Converting to image..." }
      match env.convertPdf with
      | .throws m => .thrown st2 m
      | .ok conv =>
        match conv.file with
        | none =>
          .normal { st2 with status :=
            "Error: Failed to convert PDF to image - " ++ jsOr conv.error "Unknown error" } none
        | some img =>
          if img.size = 0 then
            .normal { st2 with status := "Error: Converted image file is empty" } none
          else
            let st3 : St := { events := st2.events ++ [Event.fsUpload],
                              status := "Uploading the image..." }
            match env.uploadImage with
            | .throws m =>
              .normal { st3 with status := "Error: Failed to upload image - " ++ m } none
            | .ok none =>
              .normal { st3 with status := "Error: Failed to upload image - no result returned" } none
            | .ok (some upImg) =>
              let key := "resume:" ++ env.uuid
              let data := draftRecord inp env.uuid up.path upImg.path
              let st4 : St := { events := st3.events ++ [Event.kvSet key (stringifyRecord data)],
                                status := "Preparing data..." }
              match env.kvSetDraft with
              | .throws m => .thrown st4 m
              | .ok _ =>
                let st5 : St := { events := st4.events ++ [Event.aiCall],
                                  status := "Analyzing..." }
                match env.aiFeedback with
                | .throws m => .thrown st5 m
                | .ok none =>
                  .normal { st5 with status := "Error: Failed to analyze resume" } none
                | .ok (some fb) =>
                  match extractText fb.message.content with
                  | .error m => .thrown st5 m
                  | .ok txt =>
                    match JSON_parse txt with
                    | none => .thrown st5 ("Unexpected token in JSON: " ++ txt)
                    | some fj =>
                      let finalData : Record := { data with feedback := fj }
                      let ev6 := st5.events ++ [Event.kvSet key (stringifyRecord finalData)]
                      let st6 : St := { events := ev6, status := st5.status }
                      match env.kvSetFinal with
                      | .throws m => .thrown st6 m
                      | .ok _ =>
                        .normal { st6 with status := "Analysis complete, redirecting..." }
                          (some ("/resume/" ++ env.uuid))

/-- What a run leaves behind: the call trace, the final status text, the
processing flag after the `finally`, and the navigation target if any. -/
structure RunOutcome where
  events : List Event
  statusText : String
  isProcessing : Bool
  navigated : Option String
deriving DecidableEq

/-- The whole of `handleAnalyze`: the `try` body, the `catch` that converts a
thrown error into `"Error: " + message`, and the `finally` that clears the
processing flag on every exit path. -/
def handleAnalyze (inp : AnalyzeInput) (env : Env) : RunOutcome :=
  match handleAnalyzeBody inp env with
  | .normal st nav =>
    { events := st.events, statusText := st.status, isProcessing := false, navigated := nav }
  | .thrown st m =>
    { events := st.events, statusText := "Error: " ++ m, isProcessing := false,
      navigated := none }

/-- The `kv.set` calls of a trace, in order, as key/value pairs. -/
def kvSets (evs : List Event) : List (String × String) :=
  evs.filterMap fun e =>
    match e with
    | .kvSet k v => some (k, v)
    | _ => none

/-- How many `fs.upload` calls the Blob Store received. -/
def uploadCount (evs : List Event) : Nat :=
  (evs.filter fun e =>
    match e with
    | .fsUpload => true
    | _ => false).length

/-- The status text is marked as a failure: it starts with `"Error:"`. -/
@[reducible] def errorPrefixed (s : String) : Prop := s.data.take 6 = "Error:".data

/-! ## Sample inputs and environments for concrete runs -/
def inpOk : AnalyzeInput :=
  { companyName := "Acme", jobTitle := "Dev", jobDescription := "Build things",
    fileType := "application/pdf" }

/-- A fully successful environment: authenticated, both uploads return paths,
conversion yields a non-empty image, both persists succeed, and the feedback
service answers with string content `'\x7b"score":80\x7d'`. -/
def envOk : Env :=
  { isAuthenticated := true,
    uploadFile := .ok (some ⟨"/res.pdf"⟩),
    convertPdf := .ok ⟨some ⟨2048⟩, none⟩,
    uploadImage := .ok (some ⟨"/img.png"⟩),
    kvSetDraft := .ok (),
    aiFeedback := .ok (some ⟨⟨.str "\x7b\"score\":80\x7d"⟩⟩),
    kvSetFinal := .ok (),
    uuid := "uuid-1" }

/-- Environment for the empty-artifact scenario: conversion "succeeds" but the
produced image file has zero length. -/
def envC5 : Env := { envOk with convertPdf := .ok ⟨some ⟨0⟩, none⟩ }

/-- Environment for the feedback-unavailable scenario: everything succeeds up
to and including the draft persist, then `ai.feedback` returns null. -/
def envC6 : Env := { envOk with aiFeedback := .ok none }

/-- Environment for the C1 counterexample: both uploads succeed but the
Feedback Service returns null, so only one `kv.set` ever happens. -/
def envC1 : Env := { envOk with aiFeedback := .ok none }

/-- Environment whose feedback content is the plain string
`'\x7b"score":50\x7d'`. -/
def envStr50 : Env :=
  { envOk with aiFeedback := .ok (some ⟨⟨.str "\x7b\"score\":50\x7d"⟩⟩) }

/-- Environment whose feedback content is the block array
`[\x7b text: '\x7b"score":50\x7d' \x7d]`. -/
def envBlocks50 : Env :=
  { envOk with aiFeedback := .ok (some ⟨⟨.blocks [⟨"\x7b\"score\":50\x7d"⟩]⟩⟩) }

theorem headNotDigit_nil : headNotDigit [] := by
  intro c h
  simp at h

theorem headNotDigit_cons (c : Char) (r : List Char) (h : c.isDigit = false) :
    headNotDigit (c :: r) := by
  intro c' h'
  simp at h'
  exact h' ▸ h

theorem hexVal_hexDigit (d : Nat) (h : d < 16) : hexVal (hexDigit d) = some d := by
  interval_cases d <;> rfl

theorem digitChar_toNat (d : Nat) (h : d < 10) : (digitChar d).toNat = 48 + d := by
  interval_cases d <;> rfl

theorem digitChar_isDigit (d : Nat) (h : d < 10) : (digitChar d).isDigit = true := by
  interval_cases d <;> rfl

theorem natToDigitsAux_spec : ∀ fuel n, n < fuel →
    digitsVal (natToDigitsAux fuel n) = n ∧
    (∃ c t, natToDigitsAux fuel n = c :: t) ∧
    (∀ c ∈ natToDigitsAux fuel n, c.isDigit = true) := by
  intro fuel
  induction fuel with
  | zero => intro n h; omega
  | succ fuel ih =>
    intro n h
    by_cases h10 : n < 10
    · refine ⟨?_, ⟨digitChar n, [], ?_⟩, ?_⟩
      · simp [natToDigitsAux, h10, digitsVal, digitChar_toNat n h10]
      · simp [natToDigitsAux, h10]
      · simp [natToDigitsAux, h10]
        exact digitChar_isDigit n h10
    · have hdiv : n / 10 < fuel := by omega
      obtain ⟨hval, ⟨c, t, hne⟩, hdig⟩ := ih (n / 10) hdiv
      refine ⟨?_, ?_, ?_⟩
      · simp only [natToDigitsAux, if_neg h10, digitsVal, List.foldl_append]
        simp only [digitsVal] at hval
        simp [hval, digitChar_toNat (n % 10) (by omega)]
        omega
      · exact ⟨c, t ++ [digitChar (n % 10)], by simp [natToDigitsAux, if_neg h10, hne]⟩
      · simp only [natToDigitsAux, if_neg h10]
        intro c' hc'
        rcases List.mem_append.mp hc' with hm | hm
        · exact hdig c' hm
        · simp at hm
          exact hm ▸ digitChar_isDigit (n % 10) (by omega)

theorem natToDigits_val (n : Nat) : digitsVal (natToDigits n) = n :=
  (natToDigitsAux_spec (n + 1) n (by omega)).1

theorem natToDigits_cons (n : Nat) : ∃ c t, natToDigits n = c :: t :=
  (natToDigitsAux_spec (n + 1) n (by omega)).2.1

theorem natToDigits_digits (n : Nat) : ∀ c ∈ natToDigits n, c.isDigit = true :=
  (natToDigitsAux_spec (n + 1) n (by omega)).2.2

theorem takeWhile_digits_append : ∀ (l r : List Char),
    (∀ c ∈ l, c.isDigit = true) → headNotDigit r →
    (l ++ r).takeWhile Char.isDigit = l ∧ (l ++ r).dropWhile Char.isDigit = r := by
  intro l
  induction l with
  | nil =>
    intro r _ hr
    cases r with
    | nil => simp
    | cons c t =>
      have : c.isDigit = false := hr c (by simp)
      simp [List.takeWhile_cons, List.dropWhile_cons, this]
  | cons c l ih =>
    intro r hl hr
    have hc : c.isDigit = true := hl c (by simp)
    have := ih r (fun x hx => hl x (by simp [hx])) hr
    simp [List.takeWhile_cons, List.dropWhile_cons, hc, this.1, this.2]

theorem parseNat_natToDigits (n : Nat) (rest : List Char) (h : headNotDigit rest) :
    parseNat (natToDigits n ++ rest) = some (n, rest) := by
  obtain ⟨htw, hdw⟩ := takeWhile_digits_append (natToDigits n) rest (natToDigits_digits n) h
  obtain ⟨c, t, hct⟩ := natToDigits_cons n
  simp only [parseNat, htw, hdw]
  rw [if_neg (by simp [hct])]
  rw [natToDigits_val n]

theorem parseNumber_serNum (i : Int) (rest : List Char) (h : headNotDigit rest) :
    parseNumber (serNum i ++ rest) = some (i, rest) := by
  by_cases hneg : i < 0
  · simp only [serNum, if_pos hneg, List.cons_append]
    simp only [parseNumber, List.head?_cons, List.tail_cons, Option.some.injEq]
    simp only [if_true]
    rw [parseNat_natToDigits i.natAbs rest h]
    simp only [Option.some.injEq, Prod.mk.injEq]
    exact ⟨by omega, trivial⟩
  · simp only [serNum, if_neg hneg]
    obtain ⟨c, t, hct⟩ := natToDigits_cons i.natAbs
    have hcdig : c.isDigit = true := natToDigits_digits i.natAbs c (by simp [hct])
    have hcne : ¬((natToDigits i.natAbs ++ rest).head? = some '-') := by
      rw [hct]
      simp only [List.cons_append, List.head?_cons, Option.some.injEq]
      intro hcontra
      rw [hcontra] at hcdig
      exact absurd hcdig (by decide)
    simp only [parseNumber, if_neg hcne]
    rw [parseNat_natToDigits i.natAbs rest h]
    simp only [Option.some.injEq, Prod.mk.injEq]
    exact ⟨by omega, trivial⟩

/-! ## Round-trip of string escaping -/
theorem psb_esc_u (d1 d2 : Char) (cs : List Char) :
    parseStringBody ('\\' :: 'u' :: '0' :: '0' :: d1 :: d2 :: cs) =
      match decodeHex4 '0' '0' d1 d2 with
      | some ch => mapCons ch (parseStringBody cs)
      | none => none := by
  conv_lhs => rw [parseStringBody.eq_def]
  simp only [Char.reduceEq, if_true, if_false, ite_true, ite_false]

theorem psb_esc_quote (cs : List Char) :
    parseStringBody ('\\' :: '"' :: cs) = mapCons '"' (parseStringBody cs) := by
  conv_lhs => rw [parseStringBody.eq_def]
  simp only [Char.reduceEq, if_true, if_false, ite_true, ite_false]

theorem psb_esc_bs (cs : List Char) :
    parseStringBody ('\\' :: '\\' :: cs) = mapCons '\\' (parseStringBody cs) := by
  conv_lhs => rw [parseStringBody.eq_def]
  simp only [Char.reduceEq, if_true, if_false, ite_true, ite_false]

theorem psb_esc_b (cs : List Char) :
    parseStringBody ('\\' :: 'b' :: cs) = mapCons (Char.ofNat 8) (parseStringBody cs) := by
  conv_lhs => rw [parseStringBody.eq_def]
  simp only [Char.reduceEq, if_true, if_false, ite_true, ite_false]

theorem psb_esc_t (cs : List Char) :
    parseStringBody ('\\' :: 't' :: cs) = mapCons (Char.ofNat 9) (parseStringBody cs) := by
  conv_lhs => rw [parseStringBody.eq_def]
  simp only [Char.reduceEq, if_true, if_false, ite_true, ite_false]

theorem psb_esc_n (cs : List Char) :
    parseStringBody ('\\' :: 'n' :: cs) = mapCons (Char.ofNat 10) (parseStringBody cs) := by
  conv_lhs => rw [parseStringBody.eq_def]
  simp only [Char.reduceEq, if_true, if_false, ite_true, ite_false]

theorem psb_esc_f (cs : List Char) :
    parseStringBody ('\\' :: 'f' :: cs) = mapCons (Char.ofNat 12) (parseStringBody cs) := by
  conv_lhs => rw [parseStringBody.eq_def]
  simp only [Char.reduceEq, if_true, if_false, ite_true, ite_false]

theorem psb_esc_r (cs : List Char) :
    parseStringBody ('\\' :: 'r' :: cs) = mapCons (Char.ofNat 13) (parseStringBody cs) := by
  conv_lhs => rw [parseStringBody.eq_def]
  simp only [Char.reduceEq, if_true, if_false, ite_true, ite_false]

theorem decodeHex4_hexDigit (a b : Nat) (ha : a < 16) (hb : b < 16) :
    decodeHex4 '0' '0' (hexDigit a) (hexDigit b) = some (Char.ofNat (16 * a + b)) := by
  have h0 : hexVal '0' = some 0 := rfl
  simp only [decodeHex4, h0, hexVal_hexDigit a ha, hexVal_hexDigit b hb]
  norm_num

theorem psb_other (c : Char) (cs : List Char) (h1 : ¬ c = '"') (h2 : ¬ c = '\\')
    (h3 : ¬ c.toNat < 32) :
    parseStringBody (c :: cs) = mapCons c (parseStringBody cs) := by
  unfold parseStringBody
  rw [if_neg h1, if_neg h2, if_neg h3, ← parseStringBody.eq_def]

theorem escChar_control (c : Char) (hlt : c.toNat < 32) (h1 : ¬ c.toNat = 8)
    (h2 : ¬ c.toNat = 9) (h3 : ¬ c.toNat = 10) (h4 : ¬ c.toNat = 12)
    (h5 : ¬ c.toNat = 13) :
    escChar c = ['\\', 'u', '0', '0', hexDigit (c.toNat / 16), hexDigit (c.toNat % 16)] := by
  have hq : ¬ c = '"' := by intro hc; subst hc; exact absurd hlt (by decide)
  have hb : ¬ c = '\\' := by intro hc; subst hc; exact absurd hlt (by decide)
  simp only [escChar, if_neg hq, if_neg hb, if_neg h1, if_neg h2, if_neg h3, if_neg h4,
    if_neg h5, if_pos hlt]

theorem char_eq_of_toNat (c : Char) (n : Nat) (h : c.toNat = n) : c = Char.ofNat n := by
  rw [← h, Char.ofNat_toNat]

theorem psb_escape : ∀ (l : List Char) (rest : List Char),
    parseStringBody (escapeChars l ++ '"' :: rest) = some (l, rest) := by
  intro l
  induction l with
  | nil =>
    intro rest
    show parseStringBody ([] ++ '"' :: rest) = _
    rw [List.nil_append]
    conv_lhs => rw [parseStringBody.eq_def]
    simp only [Char.reduceEq, if_true, if_false, ite_true, ite_false]
  | cons c l ih =>
    intro rest
    simp only [escapeChars]
    rw [List.append_assoc]
    by_cases hq : c = '"'
    · subst hq
      rw [show escChar '"' = ['\\', '"'] from rfl]
      simp only [List.cons_append, List.nil_append]
      rw [psb_esc_quote, ih rest]
      exact rfl
    · by_cases hbs : c = '\\'
      · subst hbs
        rw [show escChar '\\' = ['\\', '\\'] from rfl]
        simp only [List.cons_append, List.nil_append]
        rw [psb_esc_bs, ih rest]
        exact rfl
      · by_cases h8 : c.toNat = 8
        · rw [show escChar c = ['\\', 'b'] by
            simp only [escChar, if_neg hq, if_neg hbs, if_pos h8]]
          simp only [List.cons_append, List.nil_append]
          rw [psb_esc_b, ih rest, char_eq_of_toNat c 8 h8]
          exact rfl
        · by_cases h9 : c.toNat = 9
          · rw [show escChar c = ['\\', 't'] by
              simp only [escChar, if_neg hq, if_neg hbs, if_neg h8, if_pos h9]]
            simp only [List.cons_append, List.nil_append]
            rw [psb_esc_t, ih rest, char_eq_of_toNat c 9 h9]
            exact rfl
          · by_cases h10 : c.toNat = 10
            · rw [show escChar c = ['\\', 'n'] by
                simp only [escChar, if_neg hq, if_neg hbs, if_neg h8, if_neg h9, if_pos h10]]
              simp only [List.cons_append, List.nil_append]
              rw [psb_esc_n, ih rest, char_eq_of_toNat c 10 h10]
              exact rfl
            · by_cases h12 : c.toNat = 12
              · rw [show escChar c = ['\\', 'f'] by
                  simp only [escChar, if_neg hq, if_neg hbs, if_neg h8, if_neg h9,
                    if_neg h10, if_pos h12]]
                simp only [List.cons_append, List.nil_append]
                rw [psb_esc_f, ih rest, char_eq_of_toNat c 12 h12]
                exact rfl
              · by_cases h13 : c.toNat = 13
                · rw [show escChar c = ['\\', 'r'] by
                    simp only [escChar, if_neg hq, if_neg hbs, if_neg h8, if_neg h9,
                      if_neg h10, if_neg h12, if_pos h13]]
                  simp only [List.cons_append, List.nil_append]
                  rw [psb_esc_r, ih rest, char_eq_of_toNat c 13 h13]
                  exact rfl
                · by_cases hlt : c.toNat < 32
                  · rw [escChar_control c hlt h8 h9 h10 h12 h13]
                    simp only [List.cons_append, List.nil_append]
                    rw [psb_esc_u,
                      decodeHex4_hexDigit (c.toNat / 16) (c.toNat % 16) (by omega) (by omega),
                      show 16 * (c.toNat / 16) + c.toNat % 16 = c.toNat by omega,
                      Char.ofNat_toNat, ih rest]
                    exact rfl
                  · rw [show escChar c = [c] by
                      simp only [escChar, if_neg hq, if_neg hbs, if_neg h8, if_neg h9,
                        if_neg h10, if_neg h12, if_neg h13, if_neg hlt]]
                    simp only [List.cons_append, List.nil_append]
                    rw [psb_other c _ hq hbs hlt, ih rest]
                    exact rfl

/-! ## Shapes of serialized output -/
theorem serItemsL_cons_eq (x : Json) (xs : JsonList) :
    ∃ u, serItemsL (.cons x xs) = serL x ++ u := by
  cases xs with
  | nil => exact ⟨[']'], by simp [serItemsL]⟩
  | cons y ys => exact ⟨',' :: serItemsL (.cons y ys), by simp [serItemsL]⟩

theorem serFieldsL_cons_eq (k : String) (v : Json) (fs : JsonFields) :
    ∃ w, serFieldsL (.cons k v fs) = '"' :: w := by
  cases fs with
  | nil =>
    exact ⟨escapeChars k.data ++ '"' :: ':' :: serL v ++ ['\x7d'], by simp [serFieldsL]⟩
  | cons k2 v2 fs2 =>
    exact ⟨escapeChars k.data ++ '"' :: ':' :: serL v ++ ',' :: serFieldsL (.cons k2 v2 fs2),
      by simp [serFieldsL]⟩

theorem serL_first (j : Json) :
    ∃ c t, serL j = c :: t ∧
      (c = '"' ∨ c = '-' ∨ c.isDigit = true ∨ c = '[' ∨ c = '\x7b' ∨
       c = 't' ∨ c = 'f' ∨ c = 'n') := by
  cases j with
  | str s => exact ⟨'"', escapeChars s.data ++ ['"'], by simp [serL], Or.inl rfl⟩
  | num i =>
    by_cases hneg : i < 0
    · exact ⟨'-', natToDigits i.natAbs, by simp [serL, serNum, hneg],
        Or.inr (Or.inl rfl)⟩
    · obtain ⟨c, t, hct⟩ := natToDigits_cons i.natAbs
      have hdig : c.isDigit = true := natToDigits_digits i.natAbs c (by simp [hct])
      exact ⟨c, t, by simp [serL, serNum, hneg, hct],
        Or.inr (Or.inr (Or.inl hdig))⟩
  | bool b =>
    cases b with
    | true => exact ⟨'t', ['r', 'u', 'e'], by simp [serL], by tauto⟩
    | false => exact ⟨'f', ['a', 'l', 's', 'e'], by simp [serL], by tauto⟩
  | null => exact ⟨'n', ['u', 'l', 'l'], by simp [serL], by tauto⟩
  | arr xs => exact ⟨'[', serItemsL xs, by simp [serL], by tauto⟩
  | obj fs => exact ⟨'\x7b', serFieldsL fs, by simp [serL], by tauto⟩

theorem startChar_ne_rbracket (c : Char)
    (h : c = '"' ∨ c = '-' ∨ c.isDigit = true ∨ c = '[' ∨ c = '\x7b' ∨
         c = 't' ∨ c = 'f' ∨ c = 'n') : ¬ c = ']' := by
  intro hc
  subst hc
  rcases h with h | h | h | h | h | h | h | h <;> exact absurd h (by decide)

theorem serL_len_pos (j : Json) : 0 < (serL j).length := by
  obtain ⟨c, t, hct, _⟩ := serL_first j
  simp [hct]

theorem serItemsL_cons_len_pos (x : Json) (xs : JsonList) :
    0 < (serItemsL (.cons x xs)).length := by
  obtain ⟨u, hu⟩ := serItemsL_cons_eq x xs
  have := serL_len_pos x
  simp [hu]
  omega

theorem serFieldsL_cons_len_pos (k : String) (v : Json) (fs : JsonFields) :
    0 < (serFieldsL (.cons k v fs)).length := by
  obtain ⟨w, hw⟩ := serFieldsL_cons_eq k v fs
  simp [hw]

/-! ## Parser step lemmas -/
theorem parseJson_succ_quote (n : Nat) (cs : List Char) :
    parseJson (n + 1) ('"' :: cs) =
      match parseStringBody cs with
      | some (l, r) => some (.str ⟨l⟩, r)
      | none => none := by
  conv_lhs => rw [parseJson.eq_def]
  simp only [Char.reduceEq, if_true, if_false, ite_true, ite_false]

theorem parseJson_succ_lbracket (n : Nat) (cs : List Char) :
    parseJson (n + 1) ('[' :: cs) =
      if cs.head? = some ']' then some (.arr .nil, cs.tail)
      else
        match parseItems n cs with
        | some (xs, r) => some (.arr xs, r)
        | none => none := by
  conv_lhs => rw [parseJson.eq_def]
  simp only [Char.reduceEq, if_true, if_false, ite_true, ite_false]

theorem parseJson_succ_lbrace (n : Nat) (cs : List Char) :
    parseJson (n + 1) ('\x7b' :: cs) =
      if cs.head? = some '\x7d' then some (.obj .nil, cs.tail)
      else
        match parseFields n cs with
        | some (fs, r) => some (.obj fs, r)
        | none => none := by
  conv_lhs => rw [parseJson.eq_def]
  simp only [Char.reduceEq, if_true, if_false, ite_true, ite_false]

theorem parseJson_succ_true (n : Nat) (r : List Char) :
    parseJson (n + 1) ('t' :: 'r' :: 'u' :: 'e' :: r) = some (.bool true, r) := by
  conv_lhs => rw [parseJson.eq_def]
  simp [Char.reduceEq, List.take_succ_cons, List.drop_succ_cons]

theorem parseJson_succ_false (n : Nat) (r : List Char) :
    parseJson (n + 1) ('f' :: 'a' :: 'l' :: 's' :: 'e' :: r) = some (.bool false, r) := by
  conv_lhs => rw [parseJson.eq_def]
  simp [Char.reduceEq, List.take_succ_cons, List.drop_succ_cons]

theorem parseJson_succ_null (n : Nat) (r : List Char) :
    parseJson (n + 1) ('n' :: 'u' :: 'l' :: 'l' :: r) = some (.null, r) := by
  conv_lhs => rw [parseJson.eq_def]
  simp [Char.reduceEq, List.take_succ_cons, List.drop_succ_cons]

theorem parseJson_succ_digit (n : Nat) (c : Char) (cs : List Char)
    (h : c.isDigit = true) :
    parseJson (n + 1) (c :: cs) =
      match parseNumber (c :: cs) with
      | some (i, r) => some (.num i, r)
      | none => none := by
  have h1 : ¬ c = '"' := fun hc => by subst hc; exact absurd h (by decide)
  have h2 : ¬ c = '[' := fun hc => by subst hc; exact absurd h (by decide)
  have h3 : ¬ c = '\x7b' := fun hc => by subst hc; exact absurd h (by decide)
  have h4 : ¬ c = 't' := fun hc => by subst hc; exact absurd h (by decide)
  have h5 : ¬ c = 'f' := fun hc => by subst hc; exact absurd h (by decide)
  have h6 : ¬ c = 'n' := fun hc => by subst hc; exact absurd h (by decide)
  conv_lhs => rw [parseJson.eq_def]
  simp only [if_neg h1, if_neg h2, if_neg h3, if_neg h4, if_neg h5, if_neg h6]
  rw [if_pos (Or.inr h)]

theorem parseJson_succ_dash (n : Nat) (cs : List Char) :
    parseJson (n + 1) ('-' :: cs) =
      match parseNumber ('-' :: cs) with
      | some (i, r) => some (.num i, r)
      | none => none := by
  conv_lhs => rw [parseJson.eq_def]
  simp only [Char.reduceEq, if_true, if_false, ite_true, ite_false, true_or]

theorem parseItems_succ (n : Nat) (cs : List Char) :
    parseItems (n + 1) cs =
      match parseJson n cs with
      | some (j, r) =>
        if r.head? = some ',' then
          match parseItems n r.tail with
          | some (js, r') => some (.cons j js, r')
          | none => none
        else if r.head? = some ']' then some (.cons j .nil, r.tail)
        else none
      | none => none := by
  conv_lhs => rw [parseItems.eq_def]

theorem parseFields_succ_quote (n : Nat) (cs : List Char) :
    parseFields (n + 1) ('"' :: cs) =
      match parseStringBody cs with
      | some (k, r) =>
        if r.head? = some ':' then
          match parseJson n r.tail with
          | some (v, r') =>
            if r'.head? = some ',' then
              match parseFields n r'.tail with
              | some (fs, r'') => some (.cons ⟨k⟩ v fs, r'')
              | none => none
            else if r'.head? = some '\x7d' then some (.cons ⟨k⟩ v .nil, r'.tail)
            else none
          | none => none
        else none
      | none => none := by
  conv_lhs => rw [parseFields.eq_def]
  simp only [Char.reduceEq, if_true, if_false, ite_true, ite_false]

/-! ## The round-trip theorem -/
theorem parse_ser_all : ∀ n : Nat,
    (∀ j rest, (serL j).length ≤ n → headNotDigit rest →
      parseJson n (serL j ++ rest) = some (j, rest)) ∧
    (∀ x xs rest, (serItemsL (.cons x xs)).length ≤ n →
      parseItems n (serItemsL (.cons x xs) ++ rest) = some (.cons x xs, rest)) ∧
    (∀ k v fs rest, (serFieldsL (.cons k v fs)).length ≤ n →
      parseFields n (serFieldsL (.cons k v fs) ++ rest) = some (.cons k v fs, rest)) := by
  intro n
  induction n with
  | zero =>
    refine ⟨?_, ?_, ?_⟩
    · intro j rest hlen _
      have := serL_len_pos j
      omega
    · intro x xs rest hlen
      have := serItemsL_cons_len_pos x xs
      omega
    · intro k v fs rest hlen
      have := serFieldsL_cons_len_pos k v fs
      omega
  | succ n ih =>
    obtain ⟨ihJ, ihI, ihF⟩ := ih
    refine ⟨?_, ?_, ?_⟩
    · intro j rest hlen hnd
      cases j with
      | str s =>
        simp only [serL, List.cons_append, List.append_assoc, List.singleton_append,
          List.nil_append]
        rw [parseJson_succ_quote, psb_escape s.data rest]
      | num i =>
        simp only [serL]
        by_cases hneg : i < 0
        · rw [show serNum i = '-' :: natToDigits i.natAbs by simp [serNum, hneg],
            List.cons_append, parseJson_succ_dash,
            show '-' :: (natToDigits i.natAbs ++ rest) = serNum i ++ rest by
              simp [serNum, hneg],
            parseNumber_serNum i rest hnd]
        · obtain ⟨c, t, hct⟩ := natToDigits_cons i.natAbs
          have hdig : c.isDigit = true := natToDigits_digits i.natAbs c (by simp [hct])
          rw [show serNum i = c :: t by simp [serNum, hneg, hct], List.cons_append,
            parseJson_succ_digit n c _ hdig,
            show c :: (t ++ rest) = serNum i ++ rest by simp [serNum, hneg, hct],
            parseNumber_serNum i rest hnd]
      | bool b =>
        cases b with
        | true =>
          simp only [serL, List.cons_append, List.nil_append]
          exact parseJson_succ_true n rest
        | false =>
          simp only [serL, List.cons_append, List.nil_append]
          exact parseJson_succ_false n rest
      | null =>
        simp only [serL, List.cons_append, List.nil_append]
        exact parseJson_succ_null n rest
      | arr xs =>
        cases xs with
        | nil =>
          simp only [serL, serItemsL, List.cons_append, List.nil_append]
          rw [parseJson_succ_lbracket]
          simp [List.head?_cons, List.tail_cons]
        | cons x xs =>
          have hlen' : (serItemsL (.cons x xs)).length ≤ n := by
            simp only [serL, List.length_cons] at hlen
            omega
          obtain ⟨u, hu⟩ := serItemsL_cons_eq x xs
          obtain ⟨c, t, hct, hstart⟩ := serL_first x
          have hne : ¬((serItemsL (.cons x xs) ++ rest).head? = some ']') := by
            rw [hu, hct]
            simp only [List.cons_append, List.head?_cons, Option.some.injEq]
            exact startChar_ne_rbracket c hstart
          simp only [serL, List.cons_append]
          rw [parseJson_succ_lbracket, if_neg hne, ihI x xs rest hlen']
      | obj fs =>
        cases fs with
        | nil =>
          simp only [serL, serFieldsL, List.cons_append, List.nil_append]
          rw [parseJson_succ_lbrace]
          simp [List.head?_cons, List.tail_cons]
        | cons k v fs =>
          have hlen' : (serFieldsL (.cons k v fs)).length ≤ n := by
            simp only [serL, List.length_cons] at hlen
            omega
          obtain ⟨w, hw⟩ := serFieldsL_cons_eq k v fs
          have hne : ¬((serFieldsL (.cons k v fs) ++ rest).head? = some '\x7d') := by
            rw [hw]
            simp [List.cons_append, List.head?_cons]
          simp only [serL, List.cons_append]
          rw [parseJson_succ_lbrace, if_neg hne, ihF k v fs rest hlen']
    · intro x xs rest hlen
      cases xs with
      | nil =>
        have hlx : (serL x).length ≤ n := by
          simp only [serItemsL, List.length_append, List.length_cons,
            List.length_nil] at hlen
          omega
        rw [show serItemsL (.cons x .nil) = serL x ++ [']'] by simp [serItemsL],
          List.append_assoc, List.singleton_append, parseItems_succ,
          ihJ x (']' :: rest) hlx (headNotDigit_cons ']' rest (by decide))]
        simp [List.head?_cons, List.tail_cons, Char.reduceEq]
      | cons y ys =>
        have hpos := serL_len_pos x
        have hlx : (serL x).length ≤ n := by
          simp only [serItemsL, List.length_append, List.length_cons] at hlen
          omega
        have hly : (serItemsL (.cons y ys)).length ≤ n := by
          simp only [serItemsL, List.length_append, List.length_cons] at hlen
          omega
        rw [show serItemsL (.cons x (.cons y ys)) =
              serL x ++ ',' :: serItemsL (.cons y ys) by simp [serItemsL],
          List.append_assoc, List.cons_append, parseItems_succ,
          ihJ x (',' :: (serItemsL (.cons y ys) ++ rest)) hlx
            (headNotDigit_cons ',' _ (by decide))]
        simp [List.head?_cons, List.tail_cons, Char.reduceEq, ihI y ys rest hly]
    · intro k v fs rest hlen
      cases fs with
      | nil =>
        have hlv : (serL v).length ≤ n := by
          simp only [serFieldsL, List.length_cons, List.length_append,
            List.length_nil] at hlen
          omega
        rw [show serFieldsL (.cons k v .nil) =
              '"' :: escapeChars k.data ++ '"' :: ':' :: serL v ++ ['\x7d'] by
            simp [serFieldsL]]
        simp only [List.cons_append, List.append_assoc, List.singleton_append,
          List.nil_append]
        rw [parseFields_succ_quote,
          psb_escape k.data (':' :: (serL v ++ '\x7d' :: rest))]
        simp only [List.head?_cons, List.tail_cons, Option.some.injEq, Char.reduceEq,
          if_true, ite_true]
        rw [ihJ v ('\x7d' :: rest) hlv (headNotDigit_cons '\x7d' rest (by decide))]
        simp [List.head?_cons, List.tail_cons, Char.reduceEq]
      | cons k2 v2 fs2 =>
        have hposv := serL_len_pos v
        have hlv : (serL v).length ≤ n := by
          simp only [serFieldsL, List.length_cons, List.length_append] at hlen
          omega
        have hlf : (serFieldsL (.cons k2 v2 fs2)).length ≤ n := by
          simp only [serFieldsL, List.length_cons, List.length_append] at hlen
          omega
        rw [show serFieldsL (.cons k v (.cons k2 v2 fs2)) =
              '"' :: escapeChars k.data ++ '"' :: ':' :: serL v
                ++ ',' :: serFieldsL (.cons k2 v2 fs2) by simp [serFieldsL]]
        simp only [List.cons_append, List.append_assoc, List.singleton_append,
          List.nil_append]
        rw [parseFields_succ_quote,
          psb_escape k.data
            (':' :: (serL v ++ ',' :: (serFieldsL (.cons k2 v2 fs2) ++ rest)))]
        simp only [List.head?_cons, List.tail_cons, Option.some.injEq, Char.reduceEq,
          if_true, ite_true]
        rw [ihJ v (',' :: (serFieldsL (.cons k2 v2 fs2) ++ rest)) hlv
          (headNotDigit_cons ',' _ (by decide))]
        simp [List.head?_cons, List.tail_cons, Char.reduceEq, ihF k2 v2 fs2 rest hlf]

/-- Parsing inverts serialization on every JSON value. -/
theorem JSON_parse_stringify (j : Json) : JSON_parse (JSON_stringify j) = some j := by
  have h := (parse_ser_all ((serL j).length + 1)).1 j [] (by omega) headNotDigit_nil
  rw [List.append_nil] at h
  simp only [JSON_parse, JSON_stringify]
  rw [h]

theorem jsonToRecord_recordToJson (r : Record) :
    jsonToRecord (recordToJson r) = some r := rfl

/-- Claim C9: serializing a Record (arbitrary string fields, any JSON
feedback value - in particular any nested JSON object) to its JSON text and
parsing that text back yields the original Record. -/
theorem claim_C9_record_roundtrip (r : Record) :
    parseRecord (stringifyRecord r) = some r := by
  simp only [parseRecord, stringifyRecord, JSON_parse_stringify]
  exact jsonToRecord_recordToJson r

theorem errorPrefixed_append (a b : String) (h6 : a.data.take 6 = "Error:".data) :
    errorPrefixed (a ++ b) := by
  have hlen : 6 ≤ a.data.length := by
    have h1 := congrArg List.length h6
    rw [List.length_take] at h1
    have h2 : ("Error:".data).length = 6 := rfl
    rw [h2] at h1
    omega
  unfold errorPrefixed
  rw [String.data_append, List.take_append_of_le_length hlen]
  exact h6

/-- Claim C2 (amended part): the `finally` clears the processing flag on every
exit path, success or failure. -/
theorem claim_C2_processing_reset (inp : AnalyzeInput) (env : Env) :
    (handleAnalyze inp env).isProcessing = false := by
  cases h : handleAnalyzeBody inp env with
  | normal st nav => simp [handleAnalyze, h]
  | thrown st m => simp [handleAnalyze, h]

/-- Claim C2 fails as stated: after a failed run the processing flag is back
to false, but the status text is not reset to the idle text (the `useState`
default, a single space) - it still holds the error message; only the flag is
reset in the `finally`. -/
theorem claim_C2_counterexample :
    (handleAnalyze inpOk { envOk with isAuthenticated := false }).isProcessing = false ∧
    (handleAnalyze inpOk { envOk with isAuthenticated := false }).statusText =
      "Error: Please sign in to upload files" ∧
    ¬ (handleAnalyze inpOk { envOk with isAuthenticated := false }).statusText = " " := by
  exact ⟨rfl, rfl, by decide⟩

/-- Claim C3: if the Auth Gate reports unauthenticated, the run fails with the
sign-in error, the Blob Store receives zero upload calls, and no redirect
happens. -/
theorem claim_C3_unauthenticated_no_upload (inp : AnalyzeInput) (env : Env)
    (h : env.isAuthenticated = false) :
    (handleAnalyze inp env).statusText = "Error: Please sign in to upload files" ∧
    uploadCount (handleAnalyze inp env).events = 0 ∧
    (handleAnalyze inp env).navigated = none := by
  simp [handleAnalyze, handleAnalyzeBody, h, uploadCount]

theorem claim_C3_witness :
    (handleAnalyze inpOk { envOk with isAuthenticated := false }).statusText =
      "Error: Please sign in to upload files" ∧
    uploadCount (handleAnalyze inpOk { envOk with isAuthenticated := false }).events = 0 ∧
    (handleAnalyze inpOk { envOk with isAuthenticated := false }).navigated = none :=
  claim_C3_unauthenticated_no_upload inpOk { envOk with isAuthenticated := false } rfl

/-- Claim C4 (amended part): for an authenticated run on a file whose declared
type does not contain "pdf", the run fails with the file-type error and no
upload happens. -/
theorem claim_C4_invalid_type_no_upload (inp : AnalyzeInput) (env : Env)
    (hauth : env.isAuthenticated = true)
    (htype : jsIncludes inp.fileType "pdf" = false) :
    (handleAnalyze inp env).statusText = "Error: Please upload a PDF file" ∧
    uploadCount (handleAnalyze inp env).events = 0 ∧
    (handleAnalyze inp env).navigated = none := by
  simp [handleAnalyze, handleAnalyzeBody, hauth, htype, uploadCount]

/-- Claim C4 fails as stated: the auth check runs first, so a non-PDF input
under an unauthenticated user fails with the sign-in error, not the file-type
error. -/
theorem claim_C4_counterexample :
    jsIncludes "text/plain" "pdf" = false ∧
    (handleAnalyze { inpOk with fileType := "text/plain" }
        { envOk with isAuthenticated := false }).statusText =
      "Error: Please sign in to upload files" ∧
    ¬ (handleAnalyze { inpOk with fileType := "text/plain" }
        { envOk with isAuthenticated := false }).statusText =
      "Error: Please upload a PDF file" := by
  exact ⟨by decide, rfl, by decide⟩

theorem claim_C4_witness :
    (handleAnalyze { inpOk with fileType := "text/plain" } envOk).statusText =
      "Error: Please upload a PDF file" ∧
    uploadCount (handleAnalyze { inpOk with fileType := "text/plain" } envOk).events = 0 ∧
    (handleAnalyze { inpOk with fileType := "text/plain" } envOk).navigated = none :=
  claim_C4_invalid_type_no_upload { inpOk with fileType := "text/plain" } envOk rfl rfl

/-- Claim C10: the media-type check is a case-sensitive substring test for
"pdf": an uppercase "application/PDF" is rejected as an invalid file type,
while "text/pdfx" (not a PDF type, but containing the lowercase substring)
passes validation and the run proceeds to completion. -/
theorem claim_C10_case_sensitive_substring :
    jsIncludes "application/PDF" "pdf" = false ∧
    jsIncludes "text/pdfx" "pdf" = true ∧
    (handleAnalyze { inpOk with fileType := "application/PDF" } envOk).statusText =
      "Error: Please upload a PDF file" ∧
    (handleAnalyze { inpOk with fileType := "text/pdfx" } envOk).statusText =
      "Analysis complete, redirecting..." ∧
    (handleAnalyze { inpOk with fileType := "text/pdfx" } envOk).navigated =
      some "/resume/uuid-1" := by
  exact ⟨by decide, by decide, rfl, rfl, rfl⟩

/-- Claim C5: a zero-length converted image fails the run with the
empty-artifact error, the second upload never happens (the Blob Store saw only
the resume upload), and this status is distinct from every conversion-failure
status. -/
theorem claim_C5_empty_artifact (inp : AnalyzeInput) (env : Env) (u1 : UploadedFile)
    (img : ImgFile) (err : Option String)
    (hauth : env.isAuthenticated = true)
    (htype : jsIncludes inp.fileType "pdf" = true)
    (hup : env.uploadFile = .ok (some u1))
    (hconv : env.convertPdf = .ok ⟨some img, err⟩)
    (hzero : img.size = 0) :
    (handleAnalyze inp env).statusText = "Error: Converted image file is empty" ∧
    uploadCount (handleAnalyze inp env).events = 1 ∧
    (handleAnalyze inp env).navigated = none ∧
    ∀ cause : String,
      ¬ "Error: Converted image file is empty" =
        "Error: Failed to convert PDF to image - " ++ cause := by
  refine ⟨?_, ?_, ?_, ?_⟩
  · simp [handleAnalyze, handleAnalyzeBody, hauth, htype, hup, hconv, hzero]
  · simp [handleAnalyze, handleAnalyzeBody, hauth, htype, hup, hconv, hzero, uploadCount]
  · simp [handleAnalyze, handleAnalyzeBody, hauth, htype, hup, hconv, hzero]
  · intro cause h
    have h2 : ("Error: Converted image file is empty").data.take 9 =
        ("Error: Failed to convert PDF to image - " ++ cause).data.take 9 := by rw [h]
    rw [String.data_append, List.take_append_of_le_length (by decide)] at h2
    exact absurd h2 (by decide)

theorem claim_C5_witness :
    (handleAnalyze inpOk envC5).statusText = "Error: Converted image file is empty" ∧
    uploadCount (handleAnalyze inpOk envC5).events = 1 ∧
    (handleAnalyze inpOk envC5).navigated = none ∧
    ¬ "Error: Converted image file is empty" =
      "Error: Failed to convert PDF to image - render failed" :=
  ⟨(claim_C5_empty_artifact inpOk envC5 ⟨"/res.pdf"⟩ ⟨0⟩ none rfl rfl rfl rfl rfl).1,
   (claim_C5_empty_artifact inpOk envC5 ⟨"/res.pdf"⟩ ⟨0⟩ none rfl rfl rfl rfl rfl).2.1,
   (claim_C5_empty_artifact inpOk envC5 ⟨"/res.pdf"⟩ ⟨0⟩ none rfl rfl rfl rfl rfl).2.2.1,
   (claim_C5_empty_artifact inpOk envC5 ⟨"/res.pdf"⟩ ⟨0⟩ none rfl rfl rfl rfl rfl).2.2.2
     "render failed"⟩

/-- Claim C6: when the Feedback Service returns null after both uploads and
the draft persist succeeded, the run fails with the analyze error, and the
only `kv.set` call of the run is the draft write (whose record has
`feedback = ""`), which therefore remains the last persisted value for the
key. -/
theorem claim_C6_feedback_unavailable (inp : AnalyzeInput) (env : Env)
    (u1 u2 : UploadedFile) (img : ImgFile) (err : Option String)
    (hauth : env.isAuthenticated = true)
    (htype : jsIncludes inp.fileType "pdf" = true)
    (hup1 : env.uploadFile = .ok (some u1))
    (hconv : env.convertPdf = .ok ⟨some img, err⟩)
    (hzero : ¬ img.size = 0)
    (hup2 : env.uploadImage = .ok (some u2))
    (hdraft : env.kvSetDraft = .ok ())
    (hfb : env.aiFeedback = .ok none) :
    (handleAnalyze inp env).statusText = "Error: Failed to analyze resume" ∧
    kvSets (handleAnalyze inp env).events =
      [("resume:" ++ env.uuid,
        stringifyRecord (draftRecord inp env.uuid u1.path u2.path))] ∧
    (draftRecord inp env.uuid u1.path u2.path).feedback = Json.str "" ∧
    (handleAnalyze inp env).navigated = none := by
  refine ⟨?_, ?_, rfl, ?_⟩ <;>
    simp [handleAnalyze, handleAnalyzeBody, hauth, htype, hup1, hconv, hzero, hup2,
      hdraft, hfb, kvSets]

theorem claim_C6_witness :
    (handleAnalyze inpOk envC6).statusText = "Error: Failed to analyze resume" ∧
    kvSets (handleAnalyze inpOk envC6).events =
      [("resume:uuid-1", stringifyRecord (draftRecord inpOk "uuid-1" "/res.pdf" "/img.png"))] ∧
    (draftRecord inpOk "uuid-1" "/res.pdf" "/img.png").feedback = Json.str "" ∧
    (handleAnalyze inpOk envC6).navigated = none :=
  claim_C6_feedback_unavailable inpOk envC6 ⟨"/res.pdf"⟩ ⟨"/img.png"⟩ ⟨2048⟩ none
    rfl rfl rfl rfl (by decide) rfl rfl rfl

/-- Claim C1 fails as stated: here both Blob Store uploads succeed (the store
received both calls), yet the Record Store receives exactly one `set` call,
because the Feedback Service returned null before the second persist. -/
theorem claim_C1_counterexample :
    envC1.uploadFile = CallResult.ok (some ⟨"/res.pdf"⟩) ∧
    envC1.uploadImage = CallResult.ok (some ⟨"/img.png"⟩) ∧
    uploadCount (handleAnalyze inpOk envC1).events = 2 ∧
    (kvSets (handleAnalyze inpOk envC1).events).length = 1 := by
  exact ⟨rfl, rfl, by decide, by decide⟩

/-- Amended claim C1: in every run in which both uploads succeed and the rest
of the pipeline also succeeds (draft persist, non-null feedback, content
extraction, JSON parse, final persist), the Record Store receives exactly two
`set` calls, both under the key `"resume:" + id`, the first serializing the
record with `feedback = ""` and the second serializing the same record with
`feedback` replaced by the parsed JSON of the response text. -/
theorem claim_C1_two_set_calls (inp : AnalyzeInput) (env : Env)
    (u1 u2 : UploadedFile) (img : ImgFile) (err : Option String)
    (fb : FeedbackResp) (txt : String) (fj : Json)
    (hauth : env.isAuthenticated = true)
    (htype : jsIncludes inp.fileType "pdf" = true)
    (hup1 : env.uploadFile = .ok (some u1))
    (hconv : env.convertPdf = .ok ⟨some img, err⟩)
    (hzero : ¬ img.size = 0)
    (hup2 : env.uploadImage = .ok (some u2))
    (hdraft : env.kvSetDraft = .ok ())
    (hfb : env.aiFeedback = .ok (some fb))
    (hext : extractText fb.message.content = .ok txt)
    (hparse : JSON_parse txt = some fj)
    (hfinal : env.kvSetFinal = .ok ()) :
    kvSets (handleAnalyze inp env).events =
      [("resume:" ++ env.uuid,
        stringifyRecord (draftRecord inp env.uuid u1.path u2.path)),
       ("resume:" ++ env.uuid,
        stringifyRecord
          { draftRecord inp env.uuid u1.path u2.path with feedback := fj })] ∧
    (draftRecord inp env.uuid u1.path u2.path).feedback = Json.str "" ∧
    (handleAnalyze inp env).navigated = some ("/resume/" ++ env.uuid) := by
  refine ⟨?_, rfl, ?_⟩ <;>
    simp [handleAnalyze, handleAnalyzeBody, hauth, htype, hup1, hconv, hzero, hup2,
      hdraft, hfb, hext, hparse, hfinal, kvSets]

theorem claim_C1_witness :
    kvSets (handleAnalyze inpOk envOk).events =
      [("resume:uuid-1",
        stringifyRecord (draftRecord inpOk "uuid-1" "/res.pdf" "/img.png")),
       ("resume:uuid-1",
        stringifyRecord
          { draftRecord inpOk "uuid-1" "/res.pdf" "/img.png" with
            feedback := Json.obj (.cons "score" (.num 80) .nil) })] ∧
    (draftRecord inpOk "uuid-1" "/res.pdf" "/img.png").feedback = Json.str "" ∧
    (handleAnalyze inpOk envOk).navigated = some "/resume/uuid-1" :=
  claim_C1_two_set_calls inpOk envOk ⟨"/res.pdf"⟩ ⟨"/img.png"⟩ ⟨2048⟩ none
    ⟨⟨.str "\x7b\"score\":80\x7d"⟩⟩ "\x7b\"score\":80\x7d"
    (Json.obj (.cons "score" (.num 80) .nil))
    rfl rfl rfl rfl (by decide) rfl rfl rfl rfl rfl rfl

/-- Claim C7: content is extracted uniformly from either response shape - a
plain string yields itself and a block array yields its first block's text -
and consequently the run fed `[\x7btext: '\x7b"score":50\x7d'\x7d]` is
indistinguishable from the run fed the plain string, persisting the same
final feedback `score = 50`. -/
theorem claim_C7_uniform_extraction :
    (∀ s : String, extractText (Content.str s) = Except.ok s) ∧
    (∀ (s : String) (bs : List Block),
      extractText (Content.blocks (⟨s⟩ :: bs)) = Except.ok s) ∧
    handleAnalyze inpOk envBlocks50 = handleAnalyze inpOk envStr50 ∧
    kvSets (handleAnalyze inpOk envBlocks50).events =
      [("resume:uuid-1",
        stringifyRecord (draftRecord inpOk "uuid-1" "/res.pdf" "/img.png")),
       ("resume:uuid-1",
        stringifyRecord
          { draftRecord inpOk "uuid-1" "/res.pdf" "/img.png" with
            feedback := Json.obj (.cons "score" (.num 50) .nil) })] :=
  ⟨fun _ => rfl, fun _ _ => rfl, rfl, rfl⟩

/-- Every exit of the `try` body is classified: a successful redirect with the
completion status, an early `return` whose status is an `"Error:"` message, or
an exception (which the outer `catch` will turn into one). -/
theorem handleAnalyzeBody_spec (inp : AnalyzeInput) (env : Env) :
    (∃ st, handleAnalyzeBody inp env = .normal st (some ("/resume/" ++ env.uuid)) ∧
      st.status = "Analysis complete, redirecting...") ∨
    (∃ st, handleAnalyzeBody inp env = .normal st none ∧ errorPrefixed st.status) ∨
    (∃ st m, handleAnalyzeBody inp env = .thrown st m) := by
  unfold handleAnalyzeBody
  repeat' split
  all_goals first
    | exact Or.inl ⟨_, rfl, rfl⟩
    | exact Or.inr (Or.inr ⟨_, _, rfl⟩)
    | exact Or.inr (Or.inl ⟨_, rfl, rfl⟩)

/-- Claim C8: for every behaviour of the collaborators - returning, returning
null, returning malformed data, or throwing, at any stage - the run ends
normally (the model's catch absorbs every thrown error): the processing flag
is cleared, and the final status text starts with "Error:" exactly when the
run did not reach the success redirect, so failure text is always
distinguishable from in-progress and success text. -/
theorem claim_C8_no_propagation (inp : AnalyzeInput) (env : Env) :
    (handleAnalyze inp env).isProcessing = false ∧
    ((handleAnalyze inp env).navigated = none ↔
      errorPrefixed (handleAnalyze inp env).statusText) := by
  rcases handleAnalyzeBody_spec inp env with ⟨st, hb, hs⟩ | ⟨st, hb, hs⟩ | ⟨st, m, hb⟩
  · refine ⟨by simp [handleAnalyze, hb], ?_⟩
    rw [show (handleAnalyze inp env).navigated = some ("/resume/" ++ env.uuid) by
      simp [handleAnalyze, hb]]
    rw [show (handleAnalyze inp env).statusText = st.status by simp [handleAnalyze, hb], hs]
    exact iff_of_false (by simp) (by decide)
  · refine ⟨by simp [handleAnalyze, hb], ?_⟩
    rw [show (handleAnalyze inp env).navigated = none by simp [handleAnalyze, hb]]
    rw [show (handleAnalyze inp env).statusText = st.status by simp [handleAnalyze, hb]]
    exact iff_of_true rfl hs
  · refine ⟨by simp [handleAnalyze, hb], ?_⟩
    rw [show (handleAnalyze inp env).navigated = none by simp [handleAnalyze, hb]]
    rw [show (handleAnalyze inp env).statusText = "Error: " ++ m by
      simp [handleAnalyze, hb]]
    exact iff_of_true rfl (errorPrefixed_append "Error: " m (by decide))
